import Mathlib

/-!
Shallow embedding of the foundation-inquiry-slack-bot core in Lean 4, and
theorems settling the specification claims about it.

Modelling conventions:
* Go strings are modelled as `List Char` (`Str`); Go `len` is modelled by the
  character count (the inputs the claims are about are ASCII, where the two
  agree).
* Go `float64` scores are modelled as `ℚ` (exact rational arithmetic); the
  comparisons and the 0/1 endpoint values the claims mention are exact in
  both models.
* The database is an explicit record of tables; GORM `Create`/`Save`/`First`
  become list append / update-by-id / first-match.  External collaborators
  (Slack, Confluence, the LLM) are oracle functions collected in `Env`.
-/

namespace InqBot

/-- Go strings, modelled as lists of characters. -/
abbrev Str := List Char

/-- Coerce a Lean string literal to the `Str` model. -/
def str (s : String) : Str := s.toList

/-! ### Go `strings` library primitives used by the source -/

/-- `startsWith s p` : does `s` start with `p` (Go `strings.HasPrefix`). -/
def startsWith : Str → Str → Bool
  | _, [] => true
  | [], _ :: _ => false
  | c :: cs, p :: ps => c = p && startsWith cs ps

/-- Go `strings.Contains s sub`. -/
def containsStr : Str → Str → Bool
  | s, sub =>
    if startsWith s sub then true
    else
      match s with
      | [] => false
      | _ :: cs => containsStr cs sub

/-- Inner loop of Go `strings.ReplaceAll` for a nonempty pattern `p :: ps`:
leftmost-first, non-overlapping replacement.  The `fuel` argument only makes
the recursion structural; every call site passes `fuel = s.length`, which is
enough for the recursion never to hit the fuel-exhausted branch (each step
consumes at least one character of `s`). -/
def goRepl (p : Char) (ps rep : Str) : Nat → Str → Str
  | _, [] => []
  | 0, s => s
  | fuel + 1, c :: cs =>
    if startsWith (c :: cs) (p :: ps) then
      rep ++ goRepl p ps rep fuel (cs.drop ps.length)
    else
      c :: goRepl p ps rep fuel cs

/-- Go `strings.ReplaceAll s pat rep` (the repository only calls it with a
nonempty pattern; the empty-pattern case is never exercised). -/
def replaceAll (s pat rep : Str) : Str :=
  match pat with
  | [] => s
  | p :: ps => goRepl p ps rep s.length s

/-- Go `strings.Fields`: split around runs of whitespace. -/
def fields : Str → List Str
  | [] => []
  | c :: cs =>
    if c.isWhitespace then fields cs
    else
      match cs with
      | [] => [[c]]
      | d :: _ =>
        if d.isWhitespace then [c] :: fields cs
        else
          match fields cs with
          | [] => [[c]]
          | w :: ws => (c :: w) :: ws

/-- Go `strings.Join words " "`. -/
def joinWords : List Str → Str
  | [] => []
  | w :: ws =>
    match ws with
    | [] => w
    | _ :: _ => w ++ ' ' :: joinWords ws

/-- Go `strings.Trim s cutset`: strip leading and trailing characters that
occur in `cut`. -/
def trimStr (s cut : Str) : Str :=
  ((s.dropWhile (fun c => cut.contains c)).reverse.dropWhile
      (fun c => cut.contains c)).reverse

/-- Go `strings.ToLower` (ASCII case mapping, which is all the repository's
inputs use). -/
def toLowerStr (s : Str) : Str := s.map Char.toLower

/-! ### `sanitizeCQLQuery` (internal/services/confluence.go) -/

/-- The `dangerous` list from `sanitizeCQLQuery`, in source order:
`" AND "`, `" OR "`, `" NOT "`, then the single special characters
`( ) [ ] \x7b \x7d " ' \ ~ * ?`. -/
def dangerous : List Str :=
  [ [' ', 'A', 'N', 'D', ' '], [' ', 'O', 'R', ' '], [' ', 'N', 'O', 'T', ' ']
  , ['('], [')'], ['['], [']'], [Char.ofNat 123], [Char.ofNat 125]
  , [Char.ofNat 34], [Char.ofNat 39], [Char.ofNat 92]
  , ['~'], ['*'], ['?'] ]

/-- The twelve dangerous single characters `( ) [ ] \x7b \x7d " ' \ ~ * ?`. -/
def dangerousChars : Str :=
  [ '(', ')', '[', ']', Char.ofNat 123, Char.ofNat 125
  , Char.ofNat 34, Char.ofNat 39, Char.ofNat 92, '~', '*', '?' ]

/-- `sanitizeCQLQuery` from internal/services/confluence.go: replace each
`dangerous` pattern with a space (via `strings.ReplaceAll`, in order), collapse
whitespace with `strings.Fields` + `strings.Join`, truncate to 100. -/
def sanitizeCQLQuery (query : Str) : Str :=
  let sanitized := dangerous.foldl (fun acc pat => replaceAll acc pat [' ']) query
  let sanitized := joinWords (fields sanitized)
  if 100 < sanitized.length then sanitized.take 100 else sanitized

example : sanitizeCQLQuery (str "deployment AND guide OR setup") =
    str "deployment guide setup" := by decide

example : sanitizeCQLQuery (str "deploy* ~guide [setup]") =
    str "deploy guide setup" := by decide

example : sanitizeCQLQuery (str "x AND AND y") = str "x AND y" := by decide

/-! ### Lemmas about the string primitives -/

lemma mem_of_goRepl {c : Char} {p : Char} {ps rep : Str} :
    ∀ {fuel : Nat} {s : Str}, c ∈ goRepl p ps rep fuel s → c ∈ s ∨ c ∈ rep := by
  intro fuel
  induction fuel with
  | zero =>
    intro s h
    cases s with
    | nil => simp [goRepl] at h
    | cons a as => exact Or.inl h
  | succ n ih =>
    intro s h
    cases s with
    | nil => simp [goRepl] at h
    | cons a as =>
      rw [goRepl] at h
      split at h
      · rcases List.mem_append.mp h with h' | h'
        · exact Or.inr h'
        · rcases ih h' with h'' | h''
          · exact Or.inl (List.mem_cons_of_mem a (List.drop_subset _ _ h''))
          · exact Or.inr h''
      · rcases List.mem_cons.mp h with h' | h'
        · exact Or.inl (h' ▸ List.mem_cons_self a as)
        · rcases ih h' with h'' | h''
          · exact Or.inl (List.mem_cons_of_mem a h'')
          · exact Or.inr h''

lemma goRepl_single_not_mem {d : Char} {rep : Str} (hrep : d ∉ rep) :
    ∀ {fuel : Nat} {s : Str}, s.length ≤ fuel → d ∉ goRepl d [] rep fuel s := by
  intro fuel
  induction fuel with
  | zero =>
    intro s hs
    cases s with
    | nil => simp [goRepl]
    | cons a as => simp at hs
  | succ n ih =>
    intro s hs
    cases s with
    | nil => simp [goRepl]
    | cons a as =>
      rw [goRepl]
      by_cases hst : startsWith (a :: as) [d] = true
      · rw [if_pos hst]
        intro hmem
        rcases List.mem_append.mp hmem with h' | h'
        · exact hrep h'
        · refine ih ?_ h'
          simp only [List.length_nil, List.drop_zero] at h' ⊢
          simp only [List.length_cons] at hs
          omega
      · rw [if_neg hst]
        simp only [startsWith, Bool.and_eq_true, decide_eq_true_eq] at hst
        intro hmem
        rcases List.mem_cons.mp hmem with h' | h'
        · exact hst ⟨h'.symm, trivial⟩
        · refine ih ?_ h'
          simp only [List.length_cons] at hs
          omega

lemma replaceAll_not_mem_of_not_mem {d : Char} {s pat rep : Str}
    (hs : d ∉ s) (hrep : d ∉ rep) : d ∉ replaceAll s pat rep := by
  cases pat with
  | nil => exact hs
  | cons p ps =>
    intro h
    rcases mem_of_goRepl h with h' | h'
    · exact hs h'
    · exact hrep h'

lemma replaceAll_single_not_mem {d : Char} {s : Str} (hd : d ≠ ' ') :
    d ∉ replaceAll s [d] [' '] := by
  exact goRepl_single_not_mem (by simpa using hd) le_rfl

lemma foldl_replaceAll_not_mem {d : Char} (hd : d ≠ ' ') :
    ∀ (pats : List Str) (s : Str), ([d] ∈ pats ∨ d ∉ s) →
      d ∉ pats.foldl (fun acc pat => replaceAll acc pat [' ']) s := by
  intro pats
  induction pats with
  | nil =>
    intro s h
    rcases h with h | h
    · simp at h
    · exact h
  | cons p ps ih =>
    intro s h
    rw [List.foldl_cons]
    rcases h with h | h
    · rcases List.mem_cons.mp h with h' | h'
      · subst h'
        exact ih _ (Or.inr (replaceAll_single_not_mem hd))
      · exact ih _ (Or.inl h')
    · exact ih _ (Or.inr (replaceAll_not_mem_of_not_mem h (by simpa using hd)))

lemma mem_of_mem_fields {c : Char} :
    ∀ {s : Str} {w : Str}, w ∈ fields s → c ∈ w → c ∈ s := by
  intro s
  induction s with
  | nil => intro w hw; simp [fields] at hw
  | cons a as ih =>
    intro w hw hc
    rw [fields.eq_def] at hw
    dsimp only at hw
    by_cases ha : a.isWhitespace = true
    · rw [if_pos ha] at hw
      exact List.mem_cons_of_mem a (ih hw hc)
    · rw [if_neg ha] at hw
      cases as with
      | nil =>
        simp only [List.mem_singleton] at hw
        subst hw
        simpa using hc
      | cons b bs =>
        dsimp only at hw
        by_cases hb : b.isWhitespace = true
        · rw [if_pos hb] at hw
          rcases List.mem_cons.mp hw with h' | h'
          · subst h'
            simp only [List.mem_singleton] at hc
            exact hc ▸ List.mem_cons_self a _
          · exact List.mem_cons_of_mem a (ih h' hc)
        · rw [if_neg hb] at hw
          rcases hfb : fields (b :: bs) with _ | ⟨w', ws'⟩
          · rw [hfb] at hw
            dsimp only at hw
            simp only [List.mem_singleton] at hw
            subst hw
            simp only [List.mem_singleton] at hc
            exact hc ▸ List.mem_cons_self a _
          · rw [hfb] at hw
            dsimp only at hw
            rcases List.mem_cons.mp hw with h' | h'
            · subst h'
              rcases List.mem_cons.mp hc with h'' | h''
              · exact h'' ▸ List.mem_cons_self a _
              · exact List.mem_cons_of_mem a
                  (ih (hfb ▸ List.mem_cons_self w' ws') h'')
            · exact List.mem_cons_of_mem a
                (ih (hfb ▸ List.mem_cons_of_mem w' h') hc)

lemma mem_of_mem_joinWords {c : Char} :
    ∀ {ws : List Str}, c ∈ joinWords ws → c = ' ' ∨ ∃ w ∈ ws, c ∈ w := by
  intro ws
  induction ws with
  | nil => intro h; simp [joinWords] at h
  | cons w ws ih =>
    intro h
    rw [joinWords.eq_def] at h
    dsimp only at h
    cases ws with
    | nil => exact Or.inr ⟨w, List.mem_cons_self w [], h⟩
    | cons v vs =>
      rcases List.mem_append.mp h with h' | h'
      · exact Or.inr ⟨w, List.mem_cons_self w _, h'⟩
      · rcases List.mem_cons.mp h' with h'' | h''
        · exact Or.inl h''
        · rcases ih h'' with h3 | ⟨u, hu, hcu⟩
          · exact Or.inl h3
          · exact Or.inr ⟨u, List.mem_cons_of_mem w hu, hcu⟩

/-! ### Claim C3 -/

/-- C3 counterexample: the input `"x AND AND y"` contains the operator
`" AND "`, yet `sanitizeCQLQuery` maps it to `"x AND y"`, whose output still
contains the operator token `AND` (even with its surrounding spaces):
replacement of `" AND "` is leftmost-first and non-overlapping, so the second,
overlapping occurrence survives.  This refutes the claim that the output never
contains the operator tokens. -/
theorem C3_counterexample :
    containsStr (str "x AND AND y") (str " AND ") = true ∧
    sanitizeCQLQuery (str "x AND AND y") = str "x AND y" ∧
    containsStr (sanitizeCQLQuery (str "x AND AND y")) (str " AND ") = true ∧
    containsStr (sanitizeCQLQuery (str "x AND AND y")) (str "AND") = true := by
  decide

/-- C3 (amended): for every input, the output of `sanitizeCQLQuery` contains
none of the characters `( ) [ ] \x7b \x7d " ' \ ~ * ?` and has length at most
100 characters; the operator tokens `AND`, `OR`, `NOT` however may survive
(only occurrences surrounded by single spaces are replaced, leftmost-first and
non-overlapping). -/
theorem C3_sanitize_amended (query : Str) :
    (sanitizeCQLQuery query).all (fun c => !(dangerousChars.contains c)) = true ∧
    (sanitizeCQLQuery query).length ≤ 100 := by
  constructor
  · rw [List.all_eq_true]
    intro c hc
    simp only [Bool.not_eq_true', ← Bool.not_eq_true]
    intro hcontains
    have hcd : c ∈ dangerousChars := by
      simpa [List.contains] using hcontains
    have hall : ∀ x ∈ dangerousChars, x ≠ ' ' ∧ [x] ∈ dangerous := by decide
    have hne : c ≠ ' ' := (hall c hcd).1
    have hsingle : [c] ∈ dangerous := (hall c hcd).2
    have hnotS : c ∉ dangerous.foldl (fun acc pat => replaceAll acc pat [' ']) query :=
      foldl_replaceAll_not_mem hne dangerous query (Or.inl hsingle)
    have hmem : c ∈ joinWords (fields
        (dangerous.foldl (fun acc pat => replaceAll acc pat [' ']) query)) := by
      simp only [sanitizeCQLQuery] at hc
      split at hc
      · exact List.take_subset _ _ hc
      · exact hc
    rcases mem_of_mem_joinWords hmem with h | ⟨w, hw, hcw⟩
    · exact hne h
    · exact hnotS (mem_of_mem_fields hw hcw)
  · simp only [sanitizeCQLQuery]
    split
    · rw [List.length_take]
      exact Nat.min_le_left _ _
    · omega

/-! ### Data model (internal/storage/models.go, internal/config) -/

/-- The configuration fields of internal/config consumed by the core.
`SimilarityThreshold` is `float64` in Go, modelled as `ℚ`;
`MaxSearchResults` is `int`, modelled as `ℤ`. -/
structure Config where
  TriggerEmoji : Str
  SlackSigningSecret : Str
  SimilarityThreshold : ℚ
  MaxSearchResults : ℤ
  SearchDaysBack : ℤ
deriving DecidableEq

/-- `storage.SearchResult` (internal/storage/models.go).  `Score` is
`float64` in Go, modelled as `ℚ`.  The GORM bookkeeping columns
(`ID`, `CreatedAt`, ...) and the wall-clock `CreatedDate` are not part of any
claim and are omitted. -/
structure SearchResult where
  InquiryID : Nat
  Source : Str
  SourceID : Str
  Title : Str
  Content : Str
  URL : Str
  Score : ℚ
  Author : Str
deriving DecidableEq

/-! ### Keyword extraction and scoring (internal/services/search.go) -/

/-- The stop-word set of `extractKeywords`. -/
def stopWords : List Str :=
  [ str "the", str "a", str "an", str "and", str "or", str "but"
  , str "in", str "on", str "at", str "to", str "for", str "of"
  , str "with", str "by", str "is", str "are", str "was", str "were"
  , str "be", str "been", str "have", str "has", str "had", str "do"
  , str "does", str "did", str "will", str "would", str "should", str "could"
  , str "how", str "what", str "where", str "when", str "why", str "who" ]

/-- `extractKeywords` from internal/services/search.go: lowercase, split on
whitespace, trim the punctuation cutset `.,!?;:` from each token, keep tokens
longer than 2 characters that are not stop words. -/
def extractKeywords (query : Str) : List Str :=
  let words := fields (toLowerStr query)
  words.filterMap (fun word =>
    let cleaned := trimStr word (str ".,!?;:")
    if 2 < cleaned.length ∧ stopWords.contains cleaned = false then some cleaned
    else none)

/-- `calculateRelevanceScore` from internal/services/search.go: one point per
extracted keyword contained in the lowercased content, normalized by the
number of keywords when there are any. -/
def calculateRelevanceScore (content query : Str) : ℚ :=
  let content := toLowerStr content
  let query := toLowerStr query
  let keywords := extractKeywords query
  let score : ℚ :=
    keywords.foldl (fun acc keyword =>
      if containsStr content keyword then acc + 1 else acc) 0
  if 0 < keywords.length then score / (keywords.length : ℚ) else score

example : extractKeywords (str "How to deploy service") =
    [str "deploy", str "service"] := by decide

lemma foldl_count_eq (p : Str → Bool) :
    ∀ (l : List Str) (init : ℚ),
      l.foldl (fun acc k => if p k then acc + 1 else acc) init =
        init + (l.countP p : ℚ) := by
  intro l
  induction l with
  | nil => intro init; simp
  | cons k ks ih =>
    intro init
    rw [List.foldl_cons, ih, List.countP_cons]
    by_cases hp : p k
    · simp [hp]
      ring
    · simp [hp]

/-! ### Claim C6 -/

/-- C6: for all content and query strings, `calculateRelevanceScore` lies in
[0, 1]; it equals the number of extracted keywords contained (case-
insensitively) in the content divided by the number of extracted keywords; it
is 0 when the keyword list is empty; it is 1 when every keyword is contained
(keyword-for-keyword match); and it is 0 when no keyword is contained. -/
theorem C6_calculateRelevanceScore (content query : Str) :
    0 ≤ calculateRelevanceScore content query ∧
    calculateRelevanceScore content query ≤ 1 ∧
    (extractKeywords (toLowerStr query) ≠ [] →
      calculateRelevanceScore content query =
        ((extractKeywords (toLowerStr query)).countP
            (fun k => containsStr (toLowerStr content) k) : ℚ) /
          ((extractKeywords (toLowerStr query)).length : ℚ)) ∧
    (extractKeywords (toLowerStr query) = [] →
      calculateRelevanceScore content query = 0) ∧
    (extractKeywords (toLowerStr query) ≠ [] →
      (∀ k ∈ extractKeywords (toLowerStr query),
          containsStr (toLowerStr content) k = true) →
      calculateRelevanceScore content query = 1) ∧
    ((∀ k ∈ extractKeywords (toLowerStr query),
        containsStr (toLowerStr content) k = false) →
      calculateRelevanceScore content query = 0) := by
  have hunfold : calculateRelevanceScore content query =
      if 0 < (extractKeywords (toLowerStr query)).length then
        ((extractKeywords (toLowerStr query)).countP
            (fun k => containsStr (toLowerStr content) k) : ℚ) /
          ((extractKeywords (toLowerStr query)).length : ℚ)
      else ((extractKeywords (toLowerStr query)).countP
            (fun k => containsStr (toLowerStr content) k) : ℚ) := by
    simp only [calculateRelevanceScore, foldl_count_eq, zero_add]
  rcases hkw : extractKeywords (toLowerStr query) with _ | ⟨k0, ks⟩
  · rw [hkw] at hunfold
    simp only [List.length_nil, List.countP_nil] at hunfold
    norm_num at hunfold
    refine ⟨by rw [hunfold], by rw [hunfold]; norm_num, ?_, ?_, ?_, ?_⟩
    · intro h; exact absurd rfl h
    · intro _; exact hunfold
    · intro h; exact absurd rfl h
    · intro _; exact hunfold
  · rw [hkw] at hunfold
    have hlen : 0 < (k0 :: ks).length := by simp
    rw [if_pos hlen] at hunfold
    have hlenQ : (0 : ℚ) < ((k0 :: ks).length : ℚ) := by
      exact_mod_cast hlen
    have hcount : ((k0 :: ks).countP (fun k => containsStr (toLowerStr content) k))
        ≤ (k0 :: ks).length := List.countP_le_length _
    refine ⟨?_, ?_, ?_, ?_, ?_, ?_⟩
    · rw [hunfold]
      positivity
    · rw [hunfold]
      rw [div_le_one hlenQ]
      exact_mod_cast hcount
    · intro _; exact hunfold
    · intro h; exact absurd h (by simp)
    · intro _ hall
      rw [hunfold]
      have : (k0 :: ks).countP (fun k => containsStr (toLowerStr content) k) =
          (k0 :: ks).length := by
        rw [List.countP_eq_length]
        intro a ha
        exact hall a ha
      rw [this]
      exact div_self (ne_of_gt hlenQ)
    · intro hnone
      rw [hunfold]
      have : (k0 :: ks).countP (fun k => containsStr (toLowerStr content) k) = 0 := by
        rw [List.countP_eq_zero]
        intro a ha
        simp [hnone a ha]
      rw [this]
      simp

/-- C6 witness: the spec's own scenario — query `"How to deploy service"`
(keywords `deploy`, `service`) against content containing both keywords
scores exactly 1. -/
theorem C6_witness :
    calculateRelevanceScore (str "deploy the service to production")
      (str "How to deploy service") = 1 :=
  (C6_calculateRelevanceScore (str "deploy the service to production")
      (str "How to deploy service")).2.2.2.2.1
    (by decide) (by decide)

/-! ### `filterAndRankResults` (internal/services/search.go)

The Go sort is the in-place double loop
`for i ...: for j := i+1 ...: if a[i].Score < a[j].Score { swap a[i] a[j] }`.
Its inner loop for a fixed `i`, acting on `a[i]` and the suffix `a[i+1..]`, is
embedded as `selectLoop x rest`: compare the current occupant `x` of slot `i`
with each `y` of the suffix in turn; on `x.Score < y.Score` the two are
swapped, so `y` becomes the occupant and `x` is written back into the
suffix at the position just visited.  `selectLoop` returns the final occupant
of slot `i` together with the final suffix.  The outer loop is `sortLoop`
(fuel-indexed to keep the recursion structural; fuel = list length always
suffices since `selectLoop` preserves length). -/

/-- Inner loop of the sort in `filterAndRankResults`. -/
def selectLoop : SearchResult → List SearchResult →
    SearchResult × List SearchResult
  | x, [] => (x, [])
  | x, y :: ys =>
    if x.Score < y.Score then
      let r := selectLoop y ys
      (r.1, x :: r.2)
    else
      let r := selectLoop x ys
      (r.1, y :: r.2)

/-- Outer loop of the sort in `filterAndRankResults`. -/
def sortLoop : Nat → List SearchResult → List SearchResult
  | _, [] => []
  | 0, l => l
  | fuel + 1, x :: xs =>
    let r := selectLoop x xs
    r.1 :: sortLoop fuel r.2

/-- `filterAndRankResults` from internal/services/search.go: keep results
with `Score ≥ SimilarityThreshold`, sort by score descending with the swap
sort above, truncate to `MaxSearchResults` when longer. -/
def filterAndRankResults (cfg : Config) (results : List SearchResult) :
    List SearchResult :=
  let filtered := results.filter (fun r => decide (cfg.SimilarityThreshold ≤ r.Score))
  let sorted := sortLoop filtered.length filtered
  if (cfg.MaxSearchResults : ℤ) < (sorted.length : ℤ) then
    sorted.take cfg.MaxSearchResults.toNat
  else sorted

lemma selectLoop_length :
    ∀ (x : SearchResult) (l : List SearchResult),
      (selectLoop x l).2.length = l.length := by
  intro x l
  induction l generalizing x with
  | nil => simp [selectLoop]
  | cons y ys ih =>
    rw [selectLoop]
    split
    · simpa using ih y
    · simpa using ih x

lemma selectLoop_perm :
    ∀ (x : SearchResult) (l : List SearchResult),
      List.Perm ((selectLoop x l).1 :: (selectLoop x l).2) (x :: l) := by
  intro x l
  induction l generalizing x with
  | nil => simp [selectLoop]
  | cons y ys ih =>
    rw [selectLoop]
    split
    · dsimp only
      exact (List.Perm.swap x _ _).trans ((ih y).cons x)
    · dsimp only
      exact (List.Perm.swap y _ _).trans
        (((ih x).cons y).trans (List.Perm.swap x y ys))

lemma selectLoop_max :
    ∀ (l : List SearchResult) (x z : SearchResult),
      z ∈ x :: l → z.Score ≤ (selectLoop x l).1.Score := by
  intro l
  induction l with
  | nil =>
    intro x z hz
    simp only [List.mem_singleton] at hz
    simp [selectLoop, hz]
  | cons y ys ih =>
    intro x z hz
    rw [selectLoop]
    split
    · rcases List.mem_cons.mp hz with h | h
      · rw [h]
        exact le_trans (le_of_lt (by assumption))
          (ih y y (List.mem_cons_self y ys))
      · exact ih y z h
    · rcases List.mem_cons.mp hz with h | h
      · rw [h]
        exact ih x x (List.mem_cons_self x ys)
      · rcases List.mem_cons.mp h with h' | h'
        · rw [h']
          exact le_trans (le_of_not_lt (by assumption))
            (ih x x (List.mem_cons_self x ys))
        · exact ih x z (List.mem_cons_of_mem x h')

lemma sortLoop_perm :
    ∀ (fuel : Nat) (l : List SearchResult), l.length ≤ fuel →
      List.Perm (sortLoop fuel l) l := by
  intro fuel
  induction fuel with
  | zero =>
    intro l hl
    cases l with
    | nil => simp [sortLoop]
    | cons x xs => simp at hl
  | succ n ih =>
    intro l hl
    cases l with
    | nil => simp [sortLoop]
    | cons x xs =>
      rw [sortLoop]
      refine List.Perm.trans ?_ (selectLoop_perm x xs)
      refine List.Perm.cons _ (ih _ ?_)
      rw [selectLoop_length]
      simpa using Nat.le_of_succ_le_succ hl

lemma sortLoop_sorted :
    ∀ (fuel : Nat) (l : List SearchResult), l.length ≤ fuel →
      List.Pairwise (fun a b => b.Score ≤ a.Score) (sortLoop fuel l) := by
  intro fuel
  induction fuel with
  | zero =>
    intro l hl
    cases l with
    | nil => simp [sortLoop]
    | cons x xs => simp at hl
  | succ n ih =>
    intro l hl
    cases l with
    | nil => simp [sortLoop]
    | cons x xs =>
      rw [sortLoop]
      have hlen : (selectLoop x xs).2.length ≤ n := by
        rw [selectLoop_length]
        simpa using Nat.le_of_succ_le_succ hl
      refine List.pairwise_cons.mpr ⟨?_, ih _ hlen⟩
      intro z hz
      have hz2 : z ∈ (selectLoop x xs).2 := (sortLoop_perm n _ hlen).mem_iff.mp hz
      have hz3 : z ∈ x :: xs :=
        (selectLoop_perm x xs).mem_iff.mp (List.mem_cons_of_mem _ hz2)
      exact selectLoop_max xs x z hz3

/-! ### Claim C4 -/

/-- C4: for every input list, the output of `filterAndRankResults` is sorted
by score descending, every element scores at least the configured similarity
threshold, and (provided the configured `MaxSearchResults` is nonnegative, as
its default 10 is) the output length is at most `MaxSearchResults`. -/
theorem C4_filterAndRankResults (cfg : Config) (results : List SearchResult)
    (hmax : 0 ≤ cfg.MaxSearchResults) :
    List.Pairwise (fun a b => b.Score ≤ a.Score)
      (filterAndRankResults cfg results) ∧
    (∀ r ∈ filterAndRankResults cfg results,
      cfg.SimilarityThreshold ≤ r.Score) ∧
    ((filterAndRankResults cfg results).length : ℤ) ≤ cfg.MaxSearchResults := by
  have hsorted : List.Pairwise (fun a b => b.Score ≤ a.Score)
      (sortLoop (results.filter
          (fun r => decide (cfg.SimilarityThreshold ≤ r.Score))).length
        (results.filter (fun r => decide (cfg.SimilarityThreshold ≤ r.Score)))) :=
    sortLoop_sorted _ _ le_rfl
  have hperm := sortLoop_perm (results.filter
      (fun r => decide (cfg.SimilarityThreshold ≤ r.Score))).length
    (results.filter (fun r => decide (cfg.SimilarityThreshold ≤ r.Score))) le_rfl
  refine ⟨?_, ?_, ?_⟩
  · simp only [filterAndRankResults]
    split
    · exact hsorted.sublist (List.take_sublist _ _)
    · exact hsorted
  · intro r hr
    have hr' : r ∈ sortLoop (results.filter
        (fun r => decide (cfg.SimilarityThreshold ≤ r.Score))).length
        (results.filter (fun r => decide (cfg.SimilarityThreshold ≤ r.Score))) := by
      simp only [filterAndRankResults] at hr
      split at hr
      · exact List.take_subset _ _ hr
      · exact hr
    have hr2 := hperm.mem_iff.mp hr'
    have := List.of_mem_filter hr2
    simpa using this
  · simp only [filterAndRankResults]
    split
    · rw [List.length_take]
      calc ((min cfg.MaxSearchResults.toNat _ : ℕ) : ℤ)
          ≤ (cfg.MaxSearchResults.toNat : ℤ) := by
            exact_mod_cast Nat.min_le_left _ _
        _ = cfg.MaxSearchResults := Int.toNat_of_nonneg hmax
    · omega

/-- C4 witness: a concrete run — threshold 7/10, limit 2, four inputs with
scores 3/5, 4/5, 7/10, 1 — produces a descending, threshold-clean list of
length at most 2. -/
theorem C4_witness :
    (0 : ℤ) ≤ (2 : ℤ) ∧
    (List.Pairwise (fun a b => b.Score ≤ a.Score)
      (filterAndRankResults
        { TriggerEmoji := str "eyes", SlackSigningSecret := []
        , SimilarityThreshold := mkRat 7 10, MaxSearchResults := 2
        , SearchDaysBack := 90 }
        [ { InquiryID := 1, Source := str "slack", SourceID := str "a"
          , Title := str "A", Content := [], URL := [], Score := mkRat 3 5
          , Author := [] }
        , { InquiryID := 1, Source := str "slack", SourceID := str "b"
          , Title := str "B", Content := [], URL := [], Score := mkRat 4 5
          , Author := [] }
        , { InquiryID := 1, Source := str "confluence", SourceID := str "c"
          , Title := str "C", Content := [], URL := [], Score := mkRat 7 10
          , Author := [] }
        , { InquiryID := 1, Source := str "confluence", SourceID := str "d"
          , Title := str "D", Content := [], URL := [], Score := mkRat 1 1
          , Author := [] } ]) ∧
    (∀ r ∈ filterAndRankResults
        { TriggerEmoji := str "eyes", SlackSigningSecret := []
        , SimilarityThreshold := mkRat 7 10, MaxSearchResults := 2
        , SearchDaysBack := 90 }
        [ { InquiryID := 1, Source := str "slack", SourceID := str "a"
          , Title := str "A", Content := [], URL := [], Score := mkRat 3 5
          , Author := [] }
        , { InquiryID := 1, Source := str "slack", SourceID := str "b"
          , Title := str "B", Content := [], URL := [], Score := mkRat 4 5
          , Author := [] }
        , { InquiryID := 1, Source := str "confluence", SourceID := str "c"
          , Title := str "C", Content := [], URL := [], Score := mkRat 7 10
          , Author := [] }
        , { InquiryID := 1, Source := str "confluence", SourceID := str "d"
          , Title := str "D", Content := [], URL := [], Score := mkRat 1 1
          , Author := [] } ],
      (mkRat 7 10) ≤ r.Score) ∧
    ((filterAndRankResults
        { TriggerEmoji := str "eyes", SlackSigningSecret := []
        , SimilarityThreshold := mkRat 7 10, MaxSearchResults := 2
        , SearchDaysBack := 90 }
        [ { InquiryID := 1, Source := str "slack", SourceID := str "a"
          , Title := str "A", Content := [], URL := [], Score := mkRat 3 5
          , Author := [] }
        , { InquiryID := 1, Source := str "slack", SourceID := str "b"
          , Title := str "B", Content := [], URL := [], Score := mkRat 4 5
          , Author := [] }
        , { InquiryID := 1, Source := str "confluence", SourceID := str "c"
          , Title := str "C", Content := [], URL := [], Score := mkRat 7 10
          , Author := [] }
        , { InquiryID := 1, Source := str "confluence", SourceID := str "d"
          , Title := str "D", Content := [], URL := [], Score := mkRat 1 1
          , Author := [] } ]).length : ℤ) ≤ 2) :=
  ⟨by decide, C4_filterAndRankResults _ _ (by decide)⟩

/-! ### Claim C5 -/

/-- Concrete inputs exhibiting the instability of the swap sort: two tied
results (score 4/5) followed by a higher-scoring one (9/10). -/
def cfgTie : Config :=
  { TriggerEmoji := str "eyes", SlackSigningSecret := []
  , SimilarityThreshold := mkRat 7 10, MaxSearchResults := 10
  , SearchDaysBack := 90 }

def tieA : SearchResult :=
  { InquiryID := 1, Source := str "slack", SourceID := str "a"
  , Title := str "A", Content := [], URL := [], Score := mkRat 4 5
  , Author := [] }

def tieB : SearchResult :=
  { InquiryID := 1, Source := str "slack", SourceID := str "b"
  , Title := str "B", Content := [], URL := [], Score := mkRat 4 5
  , Author := [] }

def tieC : SearchResult :=
  { InquiryID := 1, Source := str "confluence", SourceID := str "c"
  , Title := str "C", Content := [], URL := [], Score := mkRat 9 10
  , Author := [] }

/-- C5 counterexample: on input `[tieA, tieB, tieC]` — `tieA` and `tieB`
tied at score 4/5, both above the threshold 7/10, `tieA` first — the output
is `[tieC, tieB, tieA]`: the two tied survivors appear in the opposite of
their input order, so the sort is not stable. -/
theorem C5_counterexample :
    tieA.Score = tieB.Score ∧
    cfgTie.SimilarityThreshold ≤ tieA.Score ∧
    cfgTie.SimilarityThreshold ≤ tieB.Score ∧
    List.indexOf tieA [tieA, tieB, tieC] < List.indexOf tieB [tieA, tieB, tieC] ∧
    filterAndRankResults cfgTie [tieA, tieB, tieC] = [tieC, tieB, tieA] ∧
    List.indexOf tieB (filterAndRankResults cfgTie [tieA, tieB, tieC]) <
      List.indexOf tieA (filterAndRankResults cfgTie [tieA, tieB, tieC]) := by
  decide

/-- C5 (amended): the sort in `filterAndRankResults` orders the surviving
results by score descending and produces a permutation of them (before the
`MaxSearchResults` truncation), but it is not stable: results with equal
scores may appear in the output in the reverse of their input order. -/
theorem C5_sort_amended (cfg : Config) (results : List SearchResult) :
    List.Perm
      (sortLoop (results.filter
          (fun r => decide (cfg.SimilarityThreshold ≤ r.Score))).length
        (results.filter (fun r => decide (cfg.SimilarityThreshold ≤ r.Score))))
      (results.filter (fun r => decide (cfg.SimilarityThreshold ≤ r.Score))) ∧
    List.Pairwise (fun a b => b.Score ≤ a.Score)
      (sortLoop (results.filter
          (fun r => decide (cfg.SimilarityThreshold ≤ r.Score))).length
        (results.filter (fun r => decide (cfg.SimilarityThreshold ≤ r.Score)))) :=
  ⟨sortLoop_perm _ _ le_rfl, sortLoop_sorted _ _ le_rfl⟩

/-! ### Signature gate (internal/handlers/handlers.go) -/

/-- Decimal value of a nonempty all-digit string. -/
def digitsVal (ds : Str) : Option Nat :=
  if ds = [] then none
  else if ds.all (fun c => c.isDigit) then
    some (ds.foldl (fun n c => 10 * n + (c.toNat - 48)) 0)
  else none

/-- Go `math.MaxInt64`. -/
def int64Max : ℤ := 9223372036854775807

/-- Go `strconv.ParseInt(s, 10, 64)`: optional sign, at least one digit,
value within the signed 64-bit range (out-of-range input yields an error in
Go, modelled as `none`). -/
def parseInt64 (s : Str) : Option ℤ :=
  match s with
  | [] => none
  | '+' :: rest =>
    (digitsVal rest).bind (fun n =>
      if (n : ℤ) ≤ int64Max then some (n : ℤ) else none)
  | '-' :: rest =>
    (digitsVal rest).bind (fun n =>
      if (n : ℤ) ≤ int64Max + 1 then some (-(n : ℤ)) else none)
  | _ =>
    (digitsVal s).bind (fun n =>
      if (n : ℤ) ≤ int64Max then some (n : ℤ) else none)

/-- `calculateSignature` from internal/handlers/handlers.go: HMAC-SHA256 of
`"v0:" + timestamp + ":" + body` keyed by the secret, hex-encoded.  The HMAC
primitive itself is the external crypto library, passed in as the abstract
function `hmacHex : secret → message → hex digest`. -/
def calculateSignature (hmacHex : Str → Str → Str)
    (secret timestamp body : Str) : Str :=
  hmacHex secret (str "v0:" ++ timestamp ++ str ":" ++ body)

/-- `verifySlackSignature` from internal/handlers/handlers.go.
`now` is `time.Now().Unix()`; `timestampHeader` is the
`X-Slack-Request-Timestamp` header (`""` when absent, as Go's `Header.Get`
returns); `signatureHeader` is the `X-Slack-Signature` header.  The final
comparison is `hmac.Equal` on the two byte strings, i.e. equality. -/
def verifySlackSignature (hmacHex : Str → Str → Str) (secret : Str)
    (now : ℤ) (timestampHeader signatureHeader body : Str) : Bool :=
  if secret = [] then false
  else if timestampHeader = [] then false
  else
    match parseInt64 timestampHeader with
    | none => false
    | some ts =>
      if 300 < now - ts then false
      else
        let sig := str "v0=" ++ calculateSignature hmacHex secret timestampHeader body
        decide (sig = signatureHeader)

/-! ### Claim C2 -/

/-- C2: `verifySlackSignature` returns false whenever (a) the signing secret
is unconfigured (empty), (b) the timestamp header is missing (empty) or does
not parse as an integer, (c) the parsed timestamp is more than 300 seconds in
the past, or (d) the supplied signature differs anywhere from
`"v0=" + hex(HMAC-SHA256("v0:" + timestamp + ":" + body, secret))`. -/
theorem C2_verifySlackSignature (hmacHex : Str → Str → Str) (secret : Str)
    (now : ℤ) (timestampHeader signatureHeader body : Str) :
    (secret = [] →
      verifySlackSignature hmacHex secret now timestampHeader signatureHeader
        body = false) ∧
    (timestampHeader = [] ∨ parseInt64 timestampHeader = none →
      verifySlackSignature hmacHex secret now timestampHeader signatureHeader
        body = false) ∧
    (∀ ts : ℤ, parseInt64 timestampHeader = some ts → 300 < now - ts →
      verifySlackSignature hmacHex secret now timestampHeader signatureHeader
        body = false) ∧
    (signatureHeader ≠
        str "v0=" ++ calculateSignature hmacHex secret timestampHeader body →
      verifySlackSignature hmacHex secret now timestampHeader signatureHeader
        body = false) := by
  refine ⟨?_, ?_, ?_, ?_⟩
  · intro h
    simp [verifySlackSignature, h]
  · intro h
    rcases h with h | h
    · by_cases hs : secret = [] <;> simp [verifySlackSignature, hs, h]
    · by_cases hs : secret = [] <;>
        by_cases ht : timestampHeader = [] <;>
          simp [verifySlackSignature, hs, ht, h]
  · intro ts hts hold
    by_cases hs : secret = [] <;>
      by_cases ht : timestampHeader = [] <;>
        simp [verifySlackSignature, hs, ht, hts, hold]
  · intro hne
    by_cases hs : secret = [] <;> simp only [verifySlackSignature, hs]
    · simp
    · by_cases ht : timestampHeader = [] <;> simp only [ht]
      · simp
      · rcases hp : parseInt64 timestampHeader with _ | ts
        · simp
        · simp only []
          by_cases hold : 300 < now - ts <;> simp [hold]
          exact fun h => absurd h.symm hne

/-- C2 witness: each of the four rejection conditions exercised at a concrete
input (with the HMAC oracle returning a fixed digest): empty secret; missing
timestamp header; a timestamp 301 seconds old; a corrupted signature. -/
theorem C2_witness :
    verifySlackSignature (fun _ _ => str "d") [] 0 (str "1") (str "x")
      (str "b") = false ∧
    verifySlackSignature (fun _ _ => str "d") (str "s") 0 [] (str "x")
      (str "b") = false ∧
    verifySlackSignature (fun _ _ => str "d") (str "s") 301 (str "0") (str "v0=d")
      (str "b") = false ∧
    verifySlackSignature (fun _ _ => str "d") (str "s") 0 (str "0") (str "v0=e")
      (str "b") = false :=
  ⟨(C2_verifySlackSignature _ _ _ _ _ _).1 rfl,
   (C2_verifySlackSignature _ _ _ _ _ _).2.1 (Or.inl rfl),
   (C2_verifySlackSignature _ _ _ _ _ _).2.2.1 0 (by decide) (by decide),
   (C2_verifySlackSignature _ _ _ _ _ _).2.2.2 (by decide)⟩

/-! ### Claim C10 -/

/-- C10: the freshness check only bounds how far in the past the timestamp
may lie.  For every parseable timestamp strictly greater than the current
Unix time (arbitrarily far in the future), a correctly signed request passes
verification: `now - ts > 300` is false for any future `ts`. -/
theorem C10_futureTimestampAccepted (hmacHex : Str → Str → Str) (secret : Str)
    (now : ℤ) (timestampHeader body : Str) (ts : ℤ)
    (hsecret : secret ≠ []) (hts : parseInt64 timestampHeader = some ts)
    (hfuture : now < ts) :
    verifySlackSignature hmacHex secret now timestampHeader
      (str "v0=" ++ calculateSignature hmacHex secret timestampHeader body)
      body = true := by
  have hheader : timestampHeader ≠ [] := by
    intro h
    rw [h] at hts
    simp [parseInt64] at hts
  have hfresh : ¬ 300 < now - ts := by omega
  simp [verifySlackSignature, hsecret, hheader, hts, hfresh]

/-- C10 witness: with the HMAC oracle returning a fixed digest, a correctly
signed request whose timestamp (1000) lies in the future of `now = 0`
verifies successfully. -/
theorem C10_witness :
    verifySlackSignature (fun _ _ => str "d") (str "s") 0 (str "1000")
      (str "v0=" ++ calculateSignature (fun _ _ => str "d") (str "s")
        (str "1000") (str "b"))
      (str "b") = true :=
  C10_futureTimestampAccepted (fun _ _ => str "d") (str "s") 0 (str "1000")
    (str "b") 1000 (by decide) (by decide) (by decide)

/-! ### Storage model (internal/storage/models.go, GORM semantics)

`Inquiry.MessageID` carries a unique index; `Create` of a duplicate fails.
GORM's auto-increment primary keys become explicit `next...ID` counters.
`ProcessedAt` is a `*time.Time` in Go; only whether it is set matters to any
claim, so it is modelled as a `Bool`. -/

structure Inquiry where
  ID : Nat
  MessageID : Str
  ChannelID : Str
  UserID : Str
  MessageText : Str
  Timestamp : Str
  Status : Str
  ProcessedAt : Bool
  ResponseSent : Bool
  ResponseText : Str
  ThreadTimestamp : Str
deriving DecidableEq

structure ReactionEvent where
  ID : Nat
  MessageID : Str
  ChannelID : Str
  UserID : Str
  Reaction : Str
  EventType : Str
  Timestamp : Str
  Processed : Bool
  InquiryID : Option Nat
deriving DecidableEq

/-- The persistent store: the three tables plus the auto-increment
counters. -/
structure DB where
  inquiries : List Inquiry
  searchResults : List SearchResult
  reactionEvents : List ReactionEvent
  nextInquiryID : Nat
  nextReactionEventID : Nat
deriving DecidableEq

/-- GORM `db.Save(inquiry)`: update the row with the same primary key. -/
def saveInquiry (db : DB) (inq : Inquiry) : DB :=
  { db with inquiries := db.inquiries.map (fun r => if r.ID = inq.ID then inq else r) }

/-- GORM `db.Save(reactionEvent)`: update the row with the same primary
key. -/
def saveReactionEvent (db : DB) (re : ReactionEvent) : DB :=
  { db with reactionEvents :=
      db.reactionEvents.map (fun r => if r.ID = re.ID then re else r) }

/-! ### External collaborators (internal/services/slack.go, confluence.go,
llm.go), modelled as oracles -/

structure SlackMessage where
  ID : Str
  Channel : Str
  User : Str
  Text : Str
  Timestamp : Str
  ThreadTS : Str
deriving DecidableEq

structure ConfluencePage where
  ID : Str
  Title : Str
  Content : Str
  URL : Str
  Author : Str
deriving DecidableEq

/-- The external collaborators consumed by the core.  `none` models the Go
call returning a non-nil error. -/
structure Env where
  getMessage : Str → Str → Option SlackMessage
  searchMessages : Str → ℤ → Option (List SlackMessage)
  getUserRealName : Str → Option Str
  searchPages : Str → Option (List ConfluencePage)
  generate : Inquiry → List SearchResult → Option Str
  postThreadReply : Str → Str → Str → Option Str

/-! ### Search persistence (internal/services/search.go) -/

/-- `buildSlackMessageURL`: strip the dot from the timestamp. -/
def buildSlackMessageURL (channelID timestamp : Str) : Str :=
  str "https://slack.com/archives/" ++ channelID ++ str "/p" ++
    replaceAll timestamp ['.'] []

/-- The result rows built by `searchSlack`'s conversion loop (author falls
back to the user id unless `GetUserInfo` succeeds with a nonempty
`RealName`). -/
def slackResultRows (env : Env) (query : Str) (inquiryID : Nat)
    (msgs : List SlackMessage) : List SearchResult :=
  msgs.map (fun msg =>
    let author := match env.getUserRealName msg.User with
      | some rn => if rn ≠ [] then rn else msg.User
      | none => msg.User
    { InquiryID := inquiryID, Source := str "slack", SourceID := msg.Timestamp
    , Title := str "Slack Message", Content := msg.Text
    , URL := buildSlackMessageURL msg.Channel msg.Timestamp
    , Score := calculateRelevanceScore msg.Text query
    , Author := author })

/-- `searchSlack`: query the Slack collaborator, convert matches, persist
every row (persistence failures are only logged in Go and cannot occur
here). -/
def searchSlack (env : Env) (cfg : Config) (db : DB) (query : Str)
    (inquiryID : Nat) : DB × Option (List SearchResult) :=
  match env.searchMessages query cfg.SearchDaysBack with
  | none => (db, none)
  | some msgs =>
    let results := slackResultRows env query inquiryID msgs
    ({ db with searchResults := db.searchResults ++ results }, some results)

/-- The result rows built by `searchConfluence`'s conversion loop. -/
def confluenceResultRows (query : Str) (inquiryID : Nat)
    (pages : List ConfluencePage) : List SearchResult :=
  pages.map (fun page =>
    { InquiryID := inquiryID, Source := str "confluence", SourceID := page.ID
    , Title := page.Title, Content := page.Content, URL := page.URL
    , Score := calculateRelevanceScore (page.Title ++ ' ' :: page.Content) query
    , Author := page.Author })

/-- `searchConfluence`: query the Confluence collaborator (which sanitizes
the query with `sanitizeCQLQuery` before use, per `SearchPages`), convert,
persist. -/
def searchConfluence (env : Env) (db : DB) (query : Str)
    (inquiryID : Nat) : DB × Option (List SearchResult) :=
  match env.searchPages (sanitizeCQLQuery query) with
  | none => (db, none)
  | some pages =>
    let results := confluenceResultRows query inquiryID pages
    ({ db with searchResults := db.searchResults ++ results }, some results)

/-- `SearchAll` from internal/services/search.go: join the extracted
keywords into the search query, query both sources (a failing source
contributes no results and never aborts the call), filter and rank.  Never
returns an error. -/
def SearchAll (env : Env) (cfg : Config) (db : DB) (query : Str)
    (inquiryID : Nat) : DB × List SearchResult :=
  let searchQuery := joinWords (extractKeywords query)
  let s1 := searchSlack env cfg db searchQuery inquiryID
  let all1 := match s1.2 with
    | none => []
    | some rs => rs
  let s2 := searchConfluence env s1.1 searchQuery inquiryID
  let all2 := all1 ++ (match s2.2 with
    | none => []
    | some rs => rs)
  (s2.1, filterAndRankResults cfg all2)

/-- The pure value of the result list returned by `SearchAll` (which does
not depend on the database state). -/
def searchAllResults (env : Env) (cfg : Config) (query : Str)
    (inquiryID : Nat) : List SearchResult :=
  let searchQuery := joinWords (extractKeywords query)
  let all1 := match env.searchMessages searchQuery cfg.SearchDaysBack with
    | none => []
    | some msgs => slackResultRows env searchQuery inquiryID msgs
  let all2 := all1 ++ (match env.searchPages (sanitizeCQLQuery searchQuery) with
    | none => []
    | some pages => confluenceResultRows searchQuery inquiryID pages)
  filterAndRankResults cfg all2

/-! ### Inquiry orchestrator (the unnamed services file: `InquiryService`) -/

/-- The fixed zero-result fallback message (`\x27` is the apostrophe in
`couldn't`). -/
def noRelevantInfoMsg : Str :=
  str "I couldn" ++ [Char.ofNat 39] ++
    str "t find relevant information to answer your inquiry. You might want to check our documentation or reach out to the relevant team directly."

/-- One bullet of the fallback summary: title and source, a content excerpt
truncated to 100 characters (with an ellipsis) when the content is nonempty,
the URL when nonempty. -/
def fallbackBullet (result : SearchResult) : Str :=
  str "• **" ++ result.Title ++ str "** (" ++ result.Source ++ str ")\n" ++
  (if result.Content ≠ [] then
    str "  " ++
      (if 100 < result.Content.length then result.Content.take 100 ++ str "..."
       else result.Content) ++ str "\n"
   else []) ++
  (if result.URL ≠ [] then str "  " ++ result.URL ++ str "\n" else []) ++
  str "\n"

/-- `generateFallbackResponse`: the fixed message on zero results, otherwise
a header, one bullet per result for at most the top 3 (`i >= 3` breaks the
loop), and a footer. -/
def generateFallbackResponse (searchResults : List SearchResult) : Str :=
  if searchResults = [] then noRelevantInfoMsg
  else
    (searchResults.take 3).foldl
      (fun response result => response ++ fallbackBullet result)
      (str "I found some potentially relevant information:\n\n") ++
    str "Please review these resources or contact the relevant team for more specific assistance."

/-- The fixed header prefixed to every delivered reply. -/
def responseHeader : Str := str "🤖 *AI Assistant Response*\n\n"

/-- `sendResponse`: post the header-prefixed text as a thread reply; on
success record the reply thread timestamp on the inquiry and save it.
Returns the updated database, the (possibly updated) inquiry value, and
whether delivery succeeded. -/
def sendResponse (env : Env) (db : DB) (inq : Inquiry) (response : Str) :
    DB × Inquiry × Bool :=
  let formatted := responseHeader ++ response
  match env.postThreadReply inq.ChannelID inq.Timestamp formatted with
  | none => (db, inq, false)
  | some threadTS =>
    let inq2 := { inq with ThreadTimestamp := threadTS }
    (saveInquiry db inq2, inq2, true)

/-- `ProcessInquiry`: create the inquiry in `pending` (failing, with no other
effect, when the unique index on `MessageID` rejects the insert), move it to
`processing`, search, generate; on generation failure deliver the locally
synthesized fallback (delivery failure only logged) and finish `failed` with
the fallback as `ResponseText`; on generation success deliver and finish
`completed`, or `failed` retaining the text when delivery fails. -/
def ProcessInquiry (env : Env) (cfg : Config) (db : DB)
    (messageID channelID userID messageText timestamp : Str) :
    DB × Except Str Unit :=
  if db.inquiries.any (fun i => i.MessageID == messageID) then
    (db, Except.error (str "failed to create inquiry"))
  else
    let inq0 : Inquiry :=
      { ID := db.nextInquiryID, MessageID := messageID, ChannelID := channelID
      , UserID := userID, MessageText := messageText, Timestamp := timestamp
      , Status := str "pending", ProcessedAt := false, ResponseSent := false
      , ResponseText := [], ThreadTimestamp := [] }
    let db1 : DB := { db with
                      inquiries := db.inquiries ++ [inq0],
                      nextInquiryID := db.nextInquiryID + 1 }
    let inq1 := { inq0 with Status := str "processing" }
    let db2 := saveInquiry db1 inq1
    let s := SearchAll env cfg db2 messageText inq1.ID
    let db3 := s.1
    let searchResults := s.2
    match env.generate inq1 searchResults with
    | none =>
      let fallback := generateFallbackResponse searchResults
      let sr := sendResponse env db3 inq1 fallback
      let inq2 := { sr.2.1 with Status := str "failed", ResponseText := fallback }
      (saveInquiry sr.1 inq2, Except.error (str "AI response generation failed"))
    | some response =>
      let sr := sendResponse env db3 inq1 response
      if sr.2.2 then
        let inq2 := { sr.2.1 with
                      Status := str "completed", ProcessedAt := true,
                      ResponseSent := true, ResponseText := response }
        (saveInquiry sr.1 inq2, Except.ok ())
      else
        let inq2 := { sr.2.1 with Status := str "failed", ResponseText := response }
        (saveInquiry sr.1 inq2, Except.error (str "failed to send response"))

/-- `ProcessReactionEvent`: ignore anything that is not the trigger emoji
being added; otherwise record the raw ReactionEvent, fast-path return when an
inquiry for the message already exists (marking the event processed and
linking it), else fetch the message, reject empty text, run the pipeline, and
finally mark the event processed linked to the resulting inquiry. -/
def ProcessReactionEvent (env : Env) (cfg : Config) (db : DB)
    (messageID channelID userID reaction eventType timestamp : Str) :
    DB × Except Str Unit :=
  if reaction ≠ cfg.TriggerEmoji ∨ eventType ≠ str "added" then
    (db, Except.ok ())
  else
    let re : ReactionEvent :=
      { ID := db.nextReactionEventID, MessageID := messageID
      , ChannelID := channelID, UserID := userID, Reaction := reaction
      , EventType := eventType, Timestamp := timestamp, Processed := false
      , InquiryID := none }
    let db1 : DB := { db with
                      reactionEvents := db.reactionEvents ++ [re],
                      nextReactionEventID := db.nextReactionEventID + 1 }
    match db1.inquiries.find? (fun i => i.MessageID == messageID) with
    | some existing =>
      let re2 := { re with Processed := true, InquiryID := some existing.ID }
      (saveReactionEvent db1 re2, Except.ok ())
    | none =>
      match env.getMessage channelID messageID with
      | none => (db1, Except.error (str "failed to get message"))
      | some slackMessage =>
        if slackMessage.Text = [] then
          (db1, Except.error (str "empty Slack message"))
        else
          let pr := ProcessInquiry env cfg db1 messageID channelID
            slackMessage.User slackMessage.Text slackMessage.Timestamp
          match pr.2 with
          | Except.error e => (pr.1, Except.error e)
          | Except.ok _ =>
            match pr.1.inquiries.find? (fun i => i.MessageID == messageID) with
            | some inquiry =>
              let re2 := { re with Processed := true, InquiryID := some inquiry.ID }
              (saveReactionEvent pr.1 re2, Except.ok ())
            | none => (pr.1, Except.ok ())

/-! ### Lemmas about the storage operations -/

lemma update_append_inquiry (l : List Inquiry) (a b : Inquiry)
    (h : ∀ e ∈ l, e.ID ≠ b.ID) (hid : a.ID = b.ID) :
    (l ++ [a]).map (fun r => if r.ID = b.ID then b else r) = l ++ [b] := by
  rw [List.map_append]
  congr 1
  · conv_rhs => rw [← List.map_id l]
    exact List.map_congr_left (fun e he => if_neg (h e he))
  · simp [hid]

lemma update_append_reactionEvent (l : List ReactionEvent) (a b : ReactionEvent)
    (h : ∀ e ∈ l, e.ID ≠ b.ID) (hid : a.ID = b.ID) :
    (l ++ [a]).map (fun r => if r.ID = b.ID then b else r) = l ++ [b] := by
  rw [List.map_append]
  congr 1
  · conv_rhs => rw [← List.map_id l]
    exact List.map_congr_left (fun e he => if_neg (h e he))
  · simp [hid]

lemma searchSlack_fst (env : Env) (cfg : Config) (db : DB) (q : Str)
    (id : Nat) :
    (searchSlack env cfg db q id).1.inquiries = db.inquiries ∧
    (searchSlack env cfg db q id).1.reactionEvents = db.reactionEvents ∧
    (searchSlack env cfg db q id).1.nextInquiryID = db.nextInquiryID ∧
    (searchSlack env cfg db q id).1.nextReactionEventID =
      db.nextReactionEventID := by
  unfold searchSlack
  cases env.searchMessages q cfg.SearchDaysBack <;> exact ⟨rfl, rfl, rfl, rfl⟩

lemma searchConfluence_fst (env : Env) (db : DB) (q : Str) (id : Nat) :
    (searchConfluence env db q id).1.inquiries = db.inquiries ∧
    (searchConfluence env db q id).1.reactionEvents = db.reactionEvents ∧
    (searchConfluence env db q id).1.nextInquiryID = db.nextInquiryID ∧
    (searchConfluence env db q id).1.nextReactionEventID =
      db.nextReactionEventID := by
  unfold searchConfluence
  cases env.searchPages (sanitizeCQLQuery q) <;> exact ⟨rfl, rfl, rfl, rfl⟩

lemma SearchAll_fst (env : Env) (cfg : Config) (db : DB) (q : Str) (id : Nat) :
    (SearchAll env cfg db q id).1.inquiries = db.inquiries ∧
    (SearchAll env cfg db q id).1.reactionEvents = db.reactionEvents ∧
    (SearchAll env cfg db q id).1.nextInquiryID = db.nextInquiryID ∧
    (SearchAll env cfg db q id).1.nextReactionEventID =
      db.nextReactionEventID := by
  unfold SearchAll
  dsimp only
  obtain ⟨h1, h2, h3, h4⟩ := searchConfluence_fst env
    (searchSlack env cfg db (joinWords (extractKeywords q)) id).1
    (joinWords (extractKeywords q)) id
  obtain ⟨g1, g2, g3, g4⟩ := searchSlack_fst env cfg db
    (joinWords (extractKeywords q)) id
  exact ⟨h1.trans g1, h2.trans g2, h3.trans g3, h4.trans g4⟩

lemma SearchAll_snd (env : Env) (cfg : Config) (db : DB) (q : Str) (id : Nat) :
    (SearchAll env cfg db q id).2 = searchAllResults env cfg q id := by
  simp only [SearchAll, searchAllResults, searchSlack, searchConfluence]
  cases env.searchMessages (joinWords (extractKeywords q)) cfg.SearchDaysBack <;>
    cases env.searchPages (sanitizeCQLQuery (joinWords (extractKeywords q))) <;>
      rfl

lemma sendResponse_inquiries (env : Env) (db : DB) (inq : Inquiry)
    (r : Str) (base : List Inquiry)
    (hbase : db.inquiries = base ++ [inq]) (hfresh : ∀ i ∈ base, i.ID ≠ inq.ID) :
    ∃ inq2,
      (sendResponse env db inq r).1.inquiries = base ++ [inq2] ∧
      (sendResponse env db inq r).2.1 = inq2 ∧
      inq2.ID = inq.ID ∧ inq2.MessageID = inq.MessageID ∧
      (sendResponse env db inq r).1.reactionEvents = db.reactionEvents ∧
      (sendResponse env db inq r).1.nextReactionEventID =
        db.nextReactionEventID := by
  simp only [sendResponse]
  cases env.postThreadReply inq.ChannelID inq.Timestamp (responseHeader ++ r) with
  | none => exact ⟨inq, hbase, rfl, rfl, rfl, rfl, rfl⟩
  | some ts =>
    refine ⟨{ inq with ThreadTimestamp := ts }, ?_, rfl, rfl, rfl, rfl, rfl⟩
    show (db.inquiries.map _) = _
    rw [hbase]
    exact update_append_inquiry base inq _ hfresh rfl

/-! ### Claim C9 -/

/-- C9: for a genuinely new trigger event whose fetched original message has
empty text, `ProcessReactionEvent` returns the empty-message error and the
Inquiry table is unchanged (no inquiry is created); only the audit
ReactionEvent row was added. -/
theorem C9_emptyMessageNoInquiry (env : Env) (cfg : Config) (db : DB)
    (messageID channelID userID timestamp : Str) (m : SlackMessage)
    (hnew : db.inquiries.find? (fun i => i.MessageID == messageID) = none)
    (hmsg : env.getMessage channelID messageID = some m)
    (hempty : m.Text = []) :
    (ProcessReactionEvent env cfg db messageID channelID userID
      cfg.TriggerEmoji (str "added") timestamp).2 =
        Except.error (str "empty Slack message") ∧
    (ProcessReactionEvent env cfg db messageID channelID userID
      cfg.TriggerEmoji (str "added") timestamp).1.inquiries = db.inquiries := by
  unfold ProcessReactionEvent
  rw [if_neg (by simp)]
  dsimp only
  rw [hnew, hmsg]
  dsimp only
  rw [if_pos hempty]
  exact ⟨rfl, rfl⟩

/-- C9 witness: on an empty database, with the chat collaborator returning a
message with empty text, the pipeline returns the empty-message error and
creates no inquiry. -/
theorem C9_witness :
    (ProcessReactionEvent
      { getMessage := fun _ _ => some
          { ID := str "m", Channel := str "c", User := str "u", Text := []
          , Timestamp := str "t", ThreadTS := [] }
      , searchMessages := fun _ _ => none, getUserRealName := fun _ => none
      , searchPages := fun _ => none, generate := fun _ _ => none
      , postThreadReply := fun _ _ _ => none }
      { TriggerEmoji := str "eyes", SlackSigningSecret := []
      , SimilarityThreshold := mkRat 7 10, MaxSearchResults := 10
      , SearchDaysBack := 90 }
      { inquiries := [], searchResults := [], reactionEvents := []
      , nextInquiryID := 1, nextReactionEventID := 1 }
      (str "m") (str "c") (str "u") (str "eyes") (str "added")
      (str "t")).2 = Except.error (str "empty Slack message") :=
  (C9_emptyMessageNoInquiry _ _ _ _ _ _ _
    { ID := str "m", Channel := str "c", User := str "u", Text := []
    , Timestamp := str "t", ThreadTS := [] }
    (by decide) rfl rfl).1

lemma sendResponse_re (env : Env) (db : DB) (inq : Inquiry) (r : Str) :
    (sendResponse env db inq r).1.reactionEvents = db.reactionEvents ∧
    (sendResponse env db inq r).1.nextReactionEventID =
      db.nextReactionEventID := by
  simp only [sendResponse]
  cases env.postThreadReply inq.ChannelID inq.Timestamp (responseHeader ++ r) <;>
    exact ⟨rfl, rfl⟩

lemma ProcessInquiry_reactionEvents (env : Env) (cfg : Config) (db : DB)
    (messageID channelID userID messageText timestamp : Str) :
    (ProcessInquiry env cfg db messageID channelID userID messageText
      timestamp).1.reactionEvents = db.reactionEvents ∧
    (ProcessInquiry env cfg db messageID channelID userID messageText
      timestamp).1.nextReactionEventID = db.nextReactionEventID := by
  simp only [ProcessInquiry]
  split
  · exact ⟨rfl, rfl⟩
  · split
    · exact ⟨((sendResponse_re env _ _ _).1.trans
          ((SearchAll_fst env cfg _ _ _).2.1)).trans rfl,
        ((sendResponse_re env _ _ _).2.trans
          ((SearchAll_fst env cfg _ _ _).2.2.2)).trans rfl⟩
    · split
      · exact ⟨((sendResponse_re env _ _ _).1.trans
            ((SearchAll_fst env cfg _ _ _).2.1)).trans rfl,
          ((sendResponse_re env _ _ _).2.trans
            ((SearchAll_fst env cfg _ _ _).2.2.2)).trans rfl⟩
      · exact ⟨((sendResponse_re env _ _ _).1.trans
            ((SearchAll_fst env cfg _ _ _).2.1)).trans rfl,
          ((sendResponse_re env _ _ _).2.trans
            ((SearchAll_fst env cfg _ _ _).2.2.2)).trans rfl⟩

/-! ### Claim C1 -/

/-- C1: when an Inquiry row for message `m` already exists (exactly one, as
the unique index on `MessageID` guarantees), processing another trigger-emoji
"added" event for `m` creates no new Inquiry — the Inquiry table is unchanged
and still holds exactly one row for `m` — and the new ReactionEvent is
recorded marked `Processed = true` and linked (`InquiryID`) to that same
existing inquiry.  `hwf` is primary-key freshness of the auto-increment
counter. -/
theorem C1_secondReactionIdempotent (env : Env) (cfg : Config) (db : DB)
    (messageID channelID userID timestamp : Str)
    (hwf : ∀ e ∈ db.reactionEvents, e.ID < db.nextReactionEventID)
    (hcount : db.inquiries.countP (fun i => i.MessageID == messageID) = 1) :
    (ProcessReactionEvent env cfg db messageID channelID userID
      cfg.TriggerEmoji (str "added") timestamp).1.inquiries = db.inquiries ∧
    (ProcessReactionEvent env cfg db messageID channelID userID
      cfg.TriggerEmoji (str "added") timestamp).1.inquiries.countP
        (fun i => i.MessageID == messageID) = 1 ∧
    (∃ inq, db.inquiries.find? (fun i => i.MessageID == messageID) = some inq ∧
      (ProcessReactionEvent env cfg db messageID channelID userID
        cfg.TriggerEmoji (str "added") timestamp).1.reactionEvents =
        db.reactionEvents ++
          [{ ID := db.nextReactionEventID, MessageID := messageID
           , ChannelID := channelID, UserID := userID
           , Reaction := cfg.TriggerEmoji, EventType := str "added"
           , Timestamp := timestamp, Processed := true
           , InquiryID := some inq.ID }]) ∧
    (ProcessReactionEvent env cfg db messageID channelID userID
      cfg.TriggerEmoji (str "added") timestamp).2 = Except.ok () := by
  have hpos : 0 < db.inquiries.countP (fun i => i.MessageID == messageID) := by
    omega
  obtain ⟨x, hx, hpx⟩ := List.countP_pos_iff.mp hpos
  rcases hfind : db.inquiries.find? (fun i => i.MessageID == messageID)
      with _ | inq
  · exact absurd hpx (by simpa using List.find?_eq_none.mp hfind x hx)
  · unfold ProcessReactionEvent
    rw [if_neg (by simp)]
    dsimp only
    rw [hfind]
    dsimp only
    refine ⟨rfl, hcount, ⟨inq, rfl, ?_⟩, rfl⟩
    show (db.reactionEvents ++ [_]).map _ = _
    exact update_append_reactionEvent db.reactionEvents _ _
      (fun e he => Nat.ne_of_lt (hwf e he)) rfl

/-- C1 witness: a database holding exactly one inquiry for message `"m1"`;
a second "added" trigger reaction leaves the table unchanged and appends a
processed ReactionEvent linked to inquiry 1. -/
theorem C1_witness :
    (ProcessReactionEvent
      { getMessage := fun _ _ => none, searchMessages := fun _ _ => none
      , getUserRealName := fun _ => none, searchPages := fun _ => none
      , generate := fun _ _ => none, postThreadReply := fun _ _ _ => none }
      { TriggerEmoji := str "eyes", SlackSigningSecret := []
      , SimilarityThreshold := mkRat 7 10, MaxSearchResults := 10
      , SearchDaysBack := 90 }
      { inquiries :=
          [{ ID := 1, MessageID := str "m1", ChannelID := str "c"
           , UserID := str "u", MessageText := str "hello"
           , Timestamp := str "t", Status := str "completed"
           , ProcessedAt := true, ResponseSent := true
           , ResponseText := str "r", ThreadTimestamp := str "tt" }]
      , searchResults := [], reactionEvents := []
      , nextInquiryID := 2, nextReactionEventID := 1 }
      (str "m1") (str "c") (str "u2") (str "eyes") (str "added")
      (str "t2")).1.inquiries.countP
        (fun i => i.MessageID == str "m1") = 1 :=
  (C1_secondReactionIdempotent _ _ _ (str "m1") (str "c") (str "u2")
    (str "t2") (by decide) (by decide)).2.1

/-! ### Claim C8 -/

def envC8 : Env :=
  { getMessage := fun _ _ => none, searchMessages := fun _ _ => none
  , getUserRealName := fun _ => none, searchPages := fun _ => none
  , generate := fun _ _ => none, postThreadReply := fun _ _ _ => none }

def cfgC8 : Config :=
  { TriggerEmoji := str "eyes", SlackSigningSecret := []
  , SimilarityThreshold := mkRat 7 10, MaxSearchResults := 10
  , SearchDaysBack := 90 }

def dbC8 : DB :=
  { inquiries := [], searchResults := [], reactionEvents := []
  , nextInquiryID := 1, nextReactionEventID := 1 }

/-- C8 counterexample: a "removed" event for the trigger emoji, and an
"added" event for a non-trigger emoji, are both dropped before any
ReactionEvent row is recorded — `ProcessReactionEvent` returns with the
database unchanged and the ReactionEvent table still empty, refuting the
claim that every observed reaction event is recorded. -/
theorem C8_counterexample :
    dbC8.reactionEvents = [] ∧
    (ProcessReactionEvent envC8 cfgC8 dbC8 (str "m") (str "c") (str "u")
      (str "eyes") (str "removed") (str "t")).1 = dbC8 ∧
    (ProcessReactionEvent envC8 cfgC8 dbC8 (str "m") (str "c") (str "u")
      (str "eyes") (str "removed") (str "t")).1.reactionEvents = [] ∧
    (ProcessReactionEvent envC8 cfgC8 dbC8 (str "m") (str "c") (str "u")
      (str "party") (str "added") (str "t")).1.reactionEvents = [] := by
  decide

/-- C8 (amended): `ProcessReactionEvent` records a ReactionEvent row only
when the reaction is the configured trigger emoji and the event type is
"added"; any other event is a no-op returning success with the database
unchanged.  For trigger-"added" events a row for the raw event is always
appended before returning — in every branch, including the duplicate
(already-processed) and failure paths. -/
theorem C8_audit_amended (env : Env) (cfg : Config) (db : DB)
    (messageID channelID userID reaction eventType timestamp : Str)
    (hwf : ∀ e ∈ db.reactionEvents, e.ID < db.nextReactionEventID) :
    (reaction ≠ cfg.TriggerEmoji ∨ eventType ≠ str "added" →
      ProcessReactionEvent env cfg db messageID channelID userID reaction
        eventType timestamp = (db, Except.ok ())) ∧
    (reaction = cfg.TriggerEmoji → eventType = str "added" →
      ∃ re : ReactionEvent,
        (ProcessReactionEvent env cfg db messageID channelID userID reaction
          eventType timestamp).1.reactionEvents = db.reactionEvents ++ [re] ∧
        re.ID = db.nextReactionEventID ∧ re.MessageID = messageID ∧
        re.ChannelID = channelID ∧ re.UserID = userID ∧
        re.Reaction = reaction ∧ re.EventType = eventType ∧
        re.Timestamp = timestamp) := by
  constructor
  · intro h
    unfold ProcessReactionEvent
    rw [if_pos h]
  · intro h1 h2
    subst h1
    subst h2
    simp only [ProcessReactionEvent]
    rw [if_neg (by simp)]
    split
    · next existing heq =>
      refine ⟨{ ID := db.nextReactionEventID, MessageID := messageID,
                ChannelID := channelID, UserID := userID,
                Reaction := cfg.TriggerEmoji, EventType := str "added",
                Timestamp := timestamp, Processed := true,
                InquiryID := some existing.ID },
        ?_, rfl, rfl, rfl, rfl, rfl, rfl, rfl⟩
      show (db.reactionEvents ++ [_]).map _ = _
      exact update_append_reactionEvent _ _ _
        (fun e he => Nat.ne_of_lt (hwf e he)) rfl
    · split
      · exact ⟨_, rfl, rfl, rfl, rfl, rfl, rfl, rfl, rfl⟩
      · split
        · exact ⟨_, rfl, rfl, rfl, rfl, rfl, rfl, rfl, rfl⟩
        · split
          · exact ⟨_, (ProcessInquiry_reactionEvents env cfg _ _ _ _ _ _).1,
              rfl, rfl, rfl, rfl, rfl, rfl, rfl⟩
          · split
            · next inquiry heq =>
              refine ⟨{ ID := db.nextReactionEventID, MessageID := messageID,
                        ChannelID := channelID, UserID := userID,
                        Reaction := cfg.TriggerEmoji, EventType := str "added",
                        Timestamp := timestamp, Processed := true,
                        InquiryID := some inquiry.ID },
                ?_, rfl, rfl, rfl, rfl, rfl, rfl, rfl⟩
              show ((ProcessInquiry env cfg _ _ _ _ _ _).1.reactionEvents).map _ = _
              rw [(ProcessInquiry_reactionEvents env cfg _ _ _ _ _ _).1]
              show (db.reactionEvents ++ [_]).map _ = _
              exact update_append_reactionEvent _ _ _
                (fun e he => Nat.ne_of_lt (hwf e he)) rfl
            · exact ⟨_, (ProcessInquiry_reactionEvents env cfg _ _ _ _ _ _).1,
                rfl, rfl, rfl, rfl, rfl, rfl, rfl⟩

/-- C8 (amended) witness: a trigger-"added" event on an empty database (the
message fetch fails, so the pipeline errors) still records exactly one audit
ReactionEvent row. -/
theorem C8_witness :
    (ProcessReactionEvent envC8 cfgC8 dbC8 (str "m") (str "c") (str "u")
      (str "eyes") (str "added") (str "t")).1.reactionEvents.length =
      dbC8.reactionEvents.length + 1 := by
  obtain ⟨re, hre, -, -, -, -, -, -, -⟩ :=
    (C8_audit_amended envC8 cfgC8 dbC8 (str "m") (str "c") (str "u")
      (str "eyes") (str "added") (str "t") (by decide)).2 rfl rfl
  rw [hre]
  simp

/-! ### Substring lemmas for the fallback-content claim -/

lemma startsWith_append (p t : Str) : startsWith (p ++ t) p = true := by
  induction p with
  | nil => cases t <;> rfl
  | cons c cs ih => simpa [startsWith] using ih

lemma containsStr_of_split (a sub b : Str) :
    containsStr (a ++ (sub ++ b)) sub = true := by
  induction a with
  | nil =>
    rw [containsStr.eq_def]
    simp only [List.nil_append]
    rw [startsWith_append]
    simp
  | cons c cs ih =>
    rw [containsStr.eq_def]
    dsimp only [List.cons_append]
    split
    · rfl
    · exact ih

lemma containsStr_self (s : Str) : containsStr s s = true := by
  have := containsStr_of_split [] s []
  simpa using this

lemma startsWith_to_parts :
    ∀ (p s : Str), startsWith s p = true → ∃ t, s = p ++ t := by
  intro p
  induction p with
  | nil => exact fun s _ => ⟨s, rfl⟩
  | cons c cs ih =>
    intro s h
    cases s with
    | nil => simp [startsWith] at h
    | cons d ds =>
      simp only [startsWith, Bool.and_eq_true, decide_eq_true_eq] at h
      obtain ⟨t, ht⟩ := ih ds h.2
      exact ⟨t, by rw [h.1, ht]; rfl⟩

lemma containsStr_to_parts :
    ∀ (s sub : Str), containsStr s sub = true → ∃ a b, s = a ++ (sub ++ b) := by
  intro s
  induction s with
  | nil =>
    intro sub h
    rw [containsStr.eq_def] at h
    dsimp only at h
    by_cases hsw : startsWith [] sub = true
    · obtain ⟨t, ht⟩ := startsWith_to_parts sub [] hsw
      exact ⟨[], t, ht⟩
    · rw [if_neg hsw] at h
      simp at h
  | cons c cs ih =>
    intro sub h
    rw [containsStr.eq_def] at h
    dsimp only at h
    by_cases hsw : startsWith (c :: cs) sub = true
    · obtain ⟨t, ht⟩ := startsWith_to_parts sub (c :: cs) hsw
      exact ⟨[], t, ht⟩
    · rw [if_neg hsw] at h
      obtain ⟨a, b, hab⟩ := ih sub h
      exact ⟨c :: a, b, by rw [hab]; rfl⟩

lemma containsStr_append_r (s t sub : Str) (h : containsStr t sub = true) :
    containsStr (s ++ t) sub = true := by
  obtain ⟨a, b, hab⟩ := containsStr_to_parts t sub h
  rw [hab, ← List.append_assoc]
  exact containsStr_of_split (s ++ a) sub b

lemma containsStr_append_l (s t sub : Str) (h : containsStr s sub = true) :
    containsStr (s ++ t) sub = true := by
  obtain ⟨a, b, hab⟩ := containsStr_to_parts s sub h
  rw [hab]
  simp only [List.append_assoc]
  exact containsStr_of_split a sub (b ++ t)

lemma containsStr_mono (s t sub : Str) (hsub : containsStr t sub = true)
    (a b : Str) (hs : s = a ++ (t ++ b)) : containsStr s sub = true := by
  rw [hs, ← List.append_assoc]
  exact containsStr_append_l _ _ _ (containsStr_append_r _ _ _ hsub)

lemma foldl_append_eq {α : Type} (f : α → Str) :
    ∀ (l : List α) (init : Str),
      l.foldl (fun acc x => acc ++ f x) init = init ++ (l.map f).flatten := by
  intro l
  induction l with
  | nil => intro init; simp
  | cons x xs ih =>
    intro init
    rw [List.foldl_cons, ih]
    simp

lemma join_decompose {α : Type} (f : α → Str) :
    ∀ (l : List α) (r : α), r ∈ l →
      ∃ p q, (l.map f).flatten = p ++ (f r ++ q) := by
  intro l
  induction l with
  | nil => intro r hr; simp at hr
  | cons x xs ih =>
    intro r hr
    rcases List.mem_cons.mp hr with h | h
    · exact ⟨[], (xs.map f).flatten, by rw [h]; simp⟩
    · obtain ⟨p, q, hpq⟩ := ih r h
      exact ⟨f x ++ p, q, by simp [hpq]⟩

lemma fallbackBullet_contains (r : SearchResult) :
    containsStr (fallbackBullet r) r.Title = true ∧
    containsStr (fallbackBullet r) r.Source = true ∧
    (r.Content ≠ [] → containsStr (fallbackBullet r)
      (if 100 < r.Content.length then r.Content.take 100 ++ str "..."
       else r.Content) = true) ∧
    (r.URL ≠ [] → containsStr (fallbackBullet r) r.URL = true) := by
  refine ⟨?_, ?_, ?_, ?_⟩
  · unfold fallbackBullet
    exact containsStr_append_l _ _ _ (containsStr_append_l _ _ _
      (containsStr_append_l _ _ _ (containsStr_append_l _ _ _
        (containsStr_append_l _ _ _ (containsStr_append_l _ _ _
          (containsStr_append_r _ _ _ (containsStr_self _)))))))
  · unfold fallbackBullet
    exact containsStr_append_l _ _ _ (containsStr_append_l _ _ _
      (containsStr_append_l _ _ _ (containsStr_append_l _ _ _
        (containsStr_append_r _ _ _ (containsStr_self _)))))
  · intro hc
    unfold fallbackBullet
    rw [if_pos hc]
    exact containsStr_append_l _ _ _ (containsStr_append_l _ _ _
      (containsStr_append_r _ _ _ (containsStr_append_l _ _ _
        (containsStr_append_r _ _ _ (containsStr_self _)))))
  · intro hu
    unfold fallbackBullet
    rw [if_pos hu]
    exact containsStr_append_l _ _ _ (containsStr_append_r _ _ _
      (containsStr_append_l _ _ _ (containsStr_append_r _ _ _
        (containsStr_self _))))

lemma generateFallbackResponse_contains (srs : List SearchResult)
    (hne : srs ≠ []) (r : SearchResult) (hr : r ∈ srs.take 3) :
    containsStr (generateFallbackResponse srs) r.Title = true ∧
    containsStr (generateFallbackResponse srs) r.Source = true ∧
    (r.Content ≠ [] → containsStr (generateFallbackResponse srs)
      (if 100 < r.Content.length then r.Content.take 100 ++ str "..."
       else r.Content) = true) ∧
    (r.URL ≠ [] → containsStr (generateFallbackResponse srs) r.URL = true) := by
  obtain ⟨p, q, hpq⟩ := join_decompose fallbackBullet (srs.take 3) r hr
  have hshape : generateFallbackResponse srs =
      (str "I found some potentially relevant information:\n\n" ++ p) ++
        (fallbackBullet r ++
          (q ++ str "Please review these resources or contact the relevant team for more specific assistance.")) := by
    unfold generateFallbackResponse
    rw [if_neg hne, foldl_append_eq, hpq]
    simp [List.append_assoc]
  obtain ⟨h1, h2, h3, h4⟩ := fallbackBullet_contains r
  refine ⟨?_, ?_, ?_, ?_⟩
  · exact containsStr_mono _ _ _ h1 _ _ hshape
  · exact containsStr_mono _ _ _ h2 _ _ hshape
  · intro hc
    exact containsStr_mono _ _ _ (h3 hc) _ _ hshape
  · intro hu
    exact containsStr_mono _ _ _ (h4 hu) _ _ hshape

/-! ### Claim C7 -/

/-- C7: when answer generation fails (for any delivery outcome — `env`, and
with it `postThreadReply`, is arbitrary), `ProcessInquiry` appends exactly one
inquiry row, which ends with status `"failed"` and `ResponseText` equal to
the locally synthesized fallback for the ranked search results; the fallback
is the fixed no-relevant-information message when there are zero results, and
otherwise a bulleted summary of at most the top 3 results, each bullet
carrying the result's title, source, a 100-character-truncated content
excerpt, and the URL when nonempty; and the call returns the generation
error. -/
theorem C7_llmFailureFallback (env : Env) (cfg : Config) (db : DB)
    (messageID channelID userID messageText timestamp : Str)
    (hwf : ∀ i ∈ db.inquiries, i.ID < db.nextInquiryID)
    (hnew : ∀ i ∈ db.inquiries, (i.MessageID == messageID) = false)
    (hgen : ∀ inq srs, env.generate inq srs = none) :
    ∃ inqF,
      (ProcessInquiry env cfg db messageID channelID userID messageText
        timestamp).1.inquiries = db.inquiries ++ [inqF] ∧
      (ProcessInquiry env cfg db messageID channelID userID messageText
        timestamp).2 = Except.error (str "AI response generation failed") ∧
      inqF.MessageID = messageID ∧
      inqF.Status = str "failed" ∧
      inqF.ResponseText = generateFallbackResponse
        (searchAllResults env cfg messageText db.nextInquiryID) ∧
      (searchAllResults env cfg messageText db.nextInquiryID = [] →
        inqF.ResponseText = noRelevantInfoMsg) ∧
      (∀ r ∈ (searchAllResults env cfg messageText db.nextInquiryID).take 3,
        searchAllResults env cfg messageText db.nextInquiryID ≠ [] →
        containsStr inqF.ResponseText r.Title = true ∧
        containsStr inqF.ResponseText r.Source = true ∧
        (r.Content ≠ [] → containsStr inqF.ResponseText
          (if 100 < r.Content.length then r.Content.take 100 ++ str "..."
           else r.Content) = true) ∧
        (r.URL ≠ [] → containsStr inqF.ResponseText r.URL = true)) := by
  have hany : ¬ db.inquiries.any (fun i => i.MessageID == messageID) = true := by
    intro hcontra
    obtain ⟨i, hi, hpi⟩ := List.any_eq_true.mp hcontra
    rw [hnew i hi] at hpi
    exact Bool.false_ne_true hpi
  simp only [ProcessInquiry]
  rw [if_neg hany]
  rw [hgen]
  dsimp only
  rw [SearchAll_snd]
  set srs := searchAllResults env cfg messageText db.nextInquiryID with hsrs
  set fb := generateFallbackResponse srs with hfb
  set inqP : Inquiry :=
    { ID := db.nextInquiryID, MessageID := messageID, ChannelID := channelID,
      UserID := userID, MessageText := messageText, Timestamp := timestamp,
      Status := str "processing", ProcessedAt := false, ResponseSent := false,
      ResponseText := [], ThreadTimestamp := [] } with hinqP
  set db3 : DB := (SearchAll env cfg
    (saveInquiry
      { inquiries := db.inquiries ++
          [{ ID := db.nextInquiryID, MessageID := messageID,
             ChannelID := channelID, UserID := userID,
             MessageText := messageText, Timestamp := timestamp,
             Status := str "pending", ProcessedAt := false,
             ResponseSent := false, ResponseText := [],
             ThreadTimestamp := [] }],
        searchResults := db.searchResults,
        reactionEvents := db.reactionEvents,
        nextInquiryID := db.nextInquiryID + 1,
        nextReactionEventID := db.nextReactionEventID } inqP)
    messageText db.nextInquiryID).1 with hdb3
  have hfresh : ∀ i ∈ db.inquiries, i.ID ≠ inqP.ID := by
    intro i hi
    show i.ID ≠ db.nextInquiryID
    exact Nat.ne_of_lt (hwf i hi)
  have hbase : db3.inquiries = db.inquiries ++ [inqP] := by
    rw [hdb3]
    refine ((SearchAll_fst env cfg _ messageText db.nextInquiryID).1).trans ?_
    exact update_append_inquiry db.inquiries _ inqP hfresh rfl
  obtain ⟨inq2, hsi, hsr21, hid2, hmsg2, -, -⟩ :=
    sendResponse_inquiries env db3 inqP fb db.inquiries hbase hfresh
  rw [hsr21]
  refine ⟨{ inq2 with Status := str "failed", ResponseText := fb },
    ?_, rfl, ?_, rfl, ?_, ?_, ?_⟩
  · simp only [saveInquiry]
    rw [hsi]
    refine update_append_inquiry db.inquiries inq2
      { inq2 with Status := str "failed", ResponseText := fb } ?_ rfl
    intro i hi
    show i.ID ≠ inq2.ID
    rw [hid2]
    show i.ID ≠ db.nextInquiryID
    exact Nat.ne_of_lt (hwf i hi)
  · exact hmsg2
  · rfl
  · intro h
    show generateFallbackResponse srs = noRelevantInfoMsg
    rw [generateFallbackResponse, if_pos h]
  · intro r hr hne
    exact generateFallbackResponse_contains srs hne r hr

/-- C7 witness: on an empty database with a generation oracle that always
fails, the pipeline finishes with the generation error (the appended inquiry
row carrying the fallback text per the theorem). -/
theorem C7_witness :
    (ProcessInquiry
      { getMessage := fun _ _ => none, searchMessages := fun _ _ => none
      , getUserRealName := fun _ => none, searchPages := fun _ => none
      , generate := fun _ _ => none, postThreadReply := fun _ _ _ => none }
      { TriggerEmoji := str "eyes", SlackSigningSecret := []
      , SimilarityThreshold := mkRat 7 10, MaxSearchResults := 10
      , SearchDaysBack := 90 }
      { inquiries := [], searchResults := [], reactionEvents := []
      , nextInquiryID := 1, nextReactionEventID := 1 }
      (str "m") (str "c") (str "u") (str "q") (str "t")).2 =
        Except.error (str "AI response generation failed") := by
  obtain ⟨inqF, -, h2, -, -, -, -, -⟩ := C7_llmFailureFallback
    { getMessage := fun _ _ => none, searchMessages := fun _ _ => none
    , getUserRealName := fun _ => none, searchPages := fun _ => none
    , generate := fun _ _ => none, postThreadReply := fun _ _ _ => none }
    { TriggerEmoji := str "eyes", SlackSigningSecret := []
    , SimilarityThreshold := mkRat 7 10, MaxSearchResults := 10
    , SearchDaysBack := 90 }
    { inquiries := [], searchResults := [], reactionEvents := []
    , nextInquiryID := 1, nextReactionEventID := 1 }
    (str "m") (str "c") (str "u") (str "q") (str "t")
    (by decide) (by decide) (fun _ _ => rfl)
  exact h2

end InqBot
